import Mathlib

/-!
Verification of the jsdoc-powermode template/helpers against their
natural-language specification.  The JavaScript sources are shallowly
embedded: doclets become an inductive record type, host-supplied
utilities (jsdoc/util/templateHelper, jsdoc/path, jsdoc/fs) become an
opaque-function environment `Host`, and the mutation of doclet fields
becomes functional update.  JS `undefined`/missing fields are `Option`,
JS truthiness is made explicit at each use site.
-/

namespace JsdocPowermode

/-- A tiny fragment of the JS value universe, used to embed the
strict-equality comparison `(!member.scope) === 'static'` faithfully:
in JS, strict equality between a boolean and a string is always false. -/
inductive JsVal where
  | bool (b : Bool)
  | str (s : String)

/-- JS strict equality (`===`) on the embedded value fragment. -/
def jsStrictEq : JsVal → JsVal → Bool
  | JsVal.bool a, JsVal.bool b => a == b
  | JsVal.str a, JsVal.str b => a == b
  | _, _ => false

/-- JS `!v` for an optional string `v`: `!undefined = true`, the empty
string is falsy, every other string is truthy. -/
def jsNot : Option String → Bool
  | none => true
  | some s => s == ""

/-- JS object-key coercion for `seen[x]` when `x` may be `undefined`:
an undefined key is coerced to the string `"undefined"`. -/
def lnKey : Option String → String
  | some s => s
  | none => "undefined"

/-- A JS value seen only through `v === true` / `v === false` tests,
as in power-configurator's `trueOrNotWithDefault`. -/
inductive JsBoolish where
  | jsTrue
  | jsFalse
  | otherVal
deriving DecidableEq

/-- The host-supplied `env.conf.powerMode` settings object read by
`parse` (src/helpers/power-configurator.helper.js). -/
structure PowerModeSettings where
  displayStaticMembers : JsBoolish
  sort : JsBoolish
deriving DecidableEq

/-- Result of `parse`: the two boolean flags it exposes (the JS closures
are pure, so they are embedded as evaluated fields). -/
structure PowerConfig where
  shouldDisplayStaticMembers : Bool
  shouldSort : Bool
deriving DecidableEq

/-- `trueOrNotWithDefault` from power-configurator.helper.js: returns
the value when it is exactly `true` or exactly `false`, the default
otherwise. -/
def trueOrNotWithDefault (value : JsBoolish) (defaultValue : Bool) : Bool :=
  match value with
  | JsBoolish.jsTrue => true
  | JsBoolish.jsFalse => false
  | JsBoolish.otherVal => defaultValue

/-- `parse` from power-configurator.helper.js.  `object || {}` maps a
null/undefined input to an object whose two fields are undefined. -/
def parse (object : Option PowerModeSettings) : PowerConfig :=
  let config := object.getD { displayStaticMembers := JsBoolish.otherVal, sort := JsBoolish.otherVal }
  { shouldDisplayStaticMembers := trueOrNotWithDefault config.displayStaticMembers false,
    shouldSort := trueOrNotWithDefault config.sort true }

/-- `doclet.type`: an object carrying an optional `names` array. -/
structure TypeObj where
  names : Option (List String)
deriving DecidableEq

/-- `doclet.meta`: source location metadata. -/
structure MetaObj where
  path : Option String
  filename : String
deriving DecidableEq

/-- A documentation record (doclet) as read by the embedded functions.
Fields the code never reads are omitted; missing/undefined JS fields are
`none`.  `variadic` embeds the JS field `variable` (a Lean keyword).
The type is recursive because `params` and `returns` hold further
record-shaped items. -/
inductive Doclet where
  | mk : (kind : Option String) → (name : Option String) → (longname : Option String) →
      (scope : Option String) → (type : Option TypeObj) → (optional : Bool) →
      (nullable : Option Bool) → (variadic : Bool) → (params : Option (List Doclet)) →
      (returns : Option (List Doclet)) → (signature : Option String) →
      (attribs : Option String) → (meta : Option MetaObj) → Doclet

def Doclet.kind : Doclet → Option String
  | Doclet.mk k _ _ _ _ _ _ _ _ _ _ _ _ => k

def Doclet.name : Doclet → Option String
  | Doclet.mk _ n _ _ _ _ _ _ _ _ _ _ _ => n

def Doclet.longname : Doclet → Option String
  | Doclet.mk _ _ l _ _ _ _ _ _ _ _ _ _ => l

def Doclet.scope : Doclet → Option String
  | Doclet.mk _ _ _ s _ _ _ _ _ _ _ _ _ => s

def Doclet.type : Doclet → Option TypeObj
  | Doclet.mk _ _ _ _ t _ _ _ _ _ _ _ _ => t

def Doclet.optional : Doclet → Bool
  | Doclet.mk _ _ _ _ _ o _ _ _ _ _ _ _ => o

def Doclet.nullable : Doclet → Option Bool
  | Doclet.mk _ _ _ _ _ _ nl _ _ _ _ _ _ => nl

def Doclet.variadic : Doclet → Bool
  | Doclet.mk _ _ _ _ _ _ _ v _ _ _ _ _ => v

def Doclet.params : Doclet → Option (List Doclet)
  | Doclet.mk _ _ _ _ _ _ _ _ p _ _ _ _ => p

def Doclet.returns : Doclet → Option (List Doclet)
  | Doclet.mk _ _ _ _ _ _ _ _ _ r _ _ _ => r

def Doclet.signature : Doclet → Option String
  | Doclet.mk _ _ _ _ _ _ _ _ _ _ sg _ _ => sg

def Doclet.attribs : Doclet → Option String
  | Doclet.mk _ _ _ _ _ _ _ _ _ _ _ a _ => a

def Doclet.meta : Doclet → Option MetaObj
  | Doclet.mk _ _ _ _ _ _ _ _ _ _ _ _ m => m

/-- Functional update of `doclet.signature` (embeds `f.signature = ...`). -/
def Doclet.setSignature : Doclet → Option String → Doclet
  | Doclet.mk k n l s t o nl v p r _ a m, sg => Doclet.mk k n l s t o nl v p r sg a m

/-- Functional update of `doclet.attribs` (embeds `f.attribs = ...`). -/
def Doclet.setAttribs : Doclet → Option String → Doclet
  | Doclet.mk k n l s t o nl v p r sg _ m, a => Doclet.mk k n l s t o nl v p r sg a m

/-- The host toolchain surface the embedded code calls into
(jsdoc/util/templateHelper, jsdoc/path, jsdoc/fs, taffy queries).
All of these are supplied by the host and treated as opaque pure
functions. -/
structure Host where
  getAttribs : Doclet → List String
  htmlsafe : String → String
  linkto : Option String → Option String → String
  createLink : Doclet → String
  pathJoin : String → String → String
  pathJoin3 : String → String → String → String
  pathNormalize : String → String
  toTutorial : Option String → String
  methodsOf : Option String → List Doclet
  membersOf : Option String → List Doclet
  docdashStatic : Bool
  readFile : String → String → Except String String
  getUniqueFilename : Option String → String

/-- One entry of the `sourceFiles` map built by `publish`:
`{resolved, shortened}` plus a polymorphic slot standing for any other
fields a caller might have stored on the entry. -/
structure SourceFileEntry (α : Type) where
  resolved : String
  shortened : Option String
  extra : α
deriving DecidableEq

/-- Concatenate a list of strings (JS `+=` accumulation). -/
def strConcat : List String → String
  | [] => ""
  | s :: rest => s ++ strConcat rest

/-- Remove the first occurrence of `pat` from a character list; if `pat`
does not occur the list is unchanged.  Embeds the JS string-pattern
`String.prototype.replace(pat, '')`. -/
def removeFirst (pat : List Char) : List Char → List Char
  | [] => if pat.isPrefixOf ([] : List Char) then ([] : List Char).drop pat.length else []
  | c :: rest =>
      if pat.isPrefixOf (c :: rest) then (c :: rest).drop pat.length
      else c :: removeFirst pat rest

/-- JS `s.replace(pat, '')` for a plain-string pattern: removes the
first occurrence only. -/
def jsReplaceFirst (s pat : String) : String :=
  String.mk (removeFirst pat.data s.data)

/-- JS `s.replace(/\\/g, '/')`: every backslash becomes a forward slash. -/
def jsReplaceAllBackslash (s : String) : String :=
  String.mk (s.data.map (fun c => if c = '\\' then '/' else c))

/-- JS `name.replace(/^module:/, '')`: strip one leading `module:`. -/
def stripModule (s : String) : String :=
  if s.startsWith ("module:") then s.drop 7 else s

/-- JS `name.replace(/(^"|"$)/g, '')`: strip one leading and one
trailing double quote. -/
def stripQuotes (s : String) : String :=
  let s1 := if s.startsWith ("\"") then s.drop 1 else s
  if s1.endsWith ("\"") then s1.dropRight 1 else s1

/-- The regex characters `.` refuses to match (JS dot excludes line
terminators). -/
def isJsLineTerminator (c : Char) : Bool :=
  c = '\n' || c = '\r' || c = Char.ofNat 8232 || c = Char.ofNat 8233

/-- JS `/^(#.+)/.test(hash)`: a leading `#` followed by at least one
non-line-terminator character. -/
def hashTestRe (hash : String) : Bool :=
  match hash.data with
  | '#' :: c :: _ => !isJsLineTerminator c
  | _ => false

/-- Helper for `replaceHashRe`: scan for the first regex match of
`(#.+|$)` and replace it with `hash.data`. -/
def replaceHashAux (hash : List Char) : List Char → List Char
  | [] => hash
  | '#' :: rest =>
      match rest.takeWhile (fun c => !isJsLineTerminator c) with
      | [] => '#' :: replaceHashAux hash rest
      | _ :: _ => hash ++ rest.dropWhile (fun c => !isJsLineTerminator c)
  | c :: rest => c :: replaceHashAux hash rest

/-- JS `url.replace(/(#.+|$)/, hash)`: replace the first `#`-anchored
run of non-line-terminator characters, or append `hash` at the end when
no such run exists. -/
def replaceHashRe (url hash : String) : String :=
  String.mk (replaceHashAux hash.data url.data)

namespace Publish

/-- `needsSignature` from src/templates/default/publish.js lines 43-61. -/
def needsSignature (doclet : Doclet) : Bool :=
  if doclet.kind == some ("function") || doclet.kind == some ("class") then
    true
  else if doclet.kind == some ("typedef") then
    match doclet.type with
    | some t =>
        match t.names with
        | some names => names.any (fun n => n.toLower == "function")
        | none => false
    | none => false
  else
    false

/-- `getSignatureAttributes` from publish.js lines 63-77. -/
def getSignatureAttributes (item : Doclet) : List String :=
  (if item.optional then ["opt"] else []) ++
    (match item.nullable with
     | some true => ["nullable"]
     | some false => ["non-null"]
     | none => [])

/-- `updateItemName` from publish.js lines 79-92. -/
def updateItemName (item : Doclet) : String :=
  let attributes := getSignatureAttributes item
  let itemName := item.name.getD ("")
  let itemName := if item.variadic then "&hellip;" ++ itemName else itemName
  if attributes.length ≠ 0 then
    itemName ++ "<span class=\"signature-attributes\">" ++
      String.intercalate (", ") attributes ++ "</span>"
  else
    itemName

/-- `addParamAttributes` from publish.js lines 94-98. -/
def addParamAttributes (params : List Doclet) : List String :=
  (params.filter (fun param =>
    match param.name with
    | some n => !(n == "") && !(n.contains ('.'))
    | none => false)).map updateItemName

/-- `buildItemTypeStrings` from publish.js lines 100-107. -/
def buildItemTypeStrings (env : Host) (item : Doclet) : List String :=
  match item.type with
  | some t =>
      match t.names with
      | some names => names.map (fun name => env.linkto (some name) (some (env.htmlsafe name)))
      | none => []
  | none => []

/-- `buildAttribsString` from publish.js lines 109-116. -/
def buildAttribsString (env : Host) (attribs : List String) : String :=
  if attribs.length ≠ 0 then
    env.htmlsafe ("(" ++ String.intercalate (", ") attribs ++ ") ")
  else
    ""

/-- `addNonParamAttributes` from publish.js lines 118-125. -/
def addNonParamAttributes (env : Host) (items : Option (List Doclet)) : List String :=
  match items with
  | some l =>
      if l.length ≠ 0 then
        l.foldl (fun types item => types ++ buildItemTypeStrings env item) []
      else []
  | none => []

/-- `addSignatureParams` from publish.js lines 127-130. -/
def addSignatureParams (f : Doclet) : Doclet :=
  let params := match f.params with
    | some ps => addParamAttributes ps
    | none => []
  f.setSignature (some ((f.signature.getD ("")) ++ "(" ++ String.intercalate (", ") params ++ ")"))

/-- `addSignatureReturns` from publish.js lines 132-163. -/
def addSignatureReturns (env : Host) (f : Doclet) : Doclet :=
  let attribs := match f.returns with
    | some rs =>
        rs.foldl (fun acc item =>
          (env.getAttribs item).foldl (fun a attrib =>
            if a.contains attrib then a else a ++ [attrib]) acc) []
    | none => []
  let attribsString := match f.returns with
    | some _ => buildAttribsString env attribs
    | none => ""
  let returnTypes := match f.returns with
    | some _ => addNonParamAttributes env f.returns
    | none => []
  let returnTypesString :=
    if returnTypes.length ≠ 0 then
      " &rarr; " ++ attribsString ++ "\x7b" ++ String.intercalate ("|") returnTypes ++ "\x7d"
    else ""
  f.setSignature (some
    ("<span class=\"signature\">" ++ (f.signature.getD ("")) ++ "</span>" ++
     "<span class=\"type-signature\">" ++ returnTypesString ++ "</span>"))

/-- `addSignatureTypes` from publish.js lines 165-170. -/
def addSignatureTypes (env : Host) (f : Doclet) : Doclet :=
  let types := match f.type with
    | some _ => buildItemTypeStrings env f
    | none => []
  f.setSignature (some
    ((f.signature.getD ("")) ++ "<span class=\"type-signature\">" ++
     (if types.length ≠ 0 then " :" ++ String.intercalate ("|") types else "") ++ "</span>"))

/-- `addAttribs` from publish.js lines 172-176. -/
def addAttribs (env : Host) (f : Doclet) : Doclet :=
  let attribs := env.getAttribs f
  let attribsString := buildAttribsString env attribs
  f.setAttribs (some ("<span class=\"type-signature\">" ++ attribsString ++ "</span>"))

/-- `shortenPaths` from publish.js lines 178-183: set each entry's
`shortened` to `resolved` with the first occurrence of the common
prefix removed and backslashes turned into forward slashes. -/
def shortenPaths {α : Type} (files : List (String × SourceFileEntry α))
    ( commonPrefix : String) : List (String × SourceFileEntry α) :=
  files.map (fun p =>
    (p.1, { p.2 with shortened := some (jsReplaceAllBackslash (jsReplaceFirst p.2.resolved commonPrefix)) }))

/-- `getPathFromDoclet` from publish.js lines 185-193. -/
def getPathFromDoclet (env : Host) (doclet : Doclet) : Option String :=
  match doclet.meta with
  | none => none
  | some m =>
      match m.path with
      | some p => if !(p == "") && !(p == "null") then some (env.pathJoin p m.filename) else some m.filename
      | none => some m.filename

/-- `hashToLink` from publish.js lines 33-41. -/
def hashToLink (env : Host) (doclet : Doclet) (hash : String) : String :=
  if !hashTestRe hash then hash
  else
    let url := env.createLink doclet
    let url := replaceHashRe url hash
    "<a href=\"" ++ url ++ "\">" ++ hash ++ "</a>"

end Publish

namespace PowerHelper

/-- `needsSignature` from src/helpers/power-template.helper.js lines 158-175. -/
def needsSignature (doclet : Doclet) : Bool :=
  if doclet.kind == some ("function") || doclet.kind == some ("class") then
    true
  else if doclet.kind == some ("typedef") then
    match doclet.type with
    | some t =>
        match t.names with
        | some names => names.any (fun n => n.toLower == "function")
        | none => false
    | none => false
  else
    false

/-- `getSignatureAttributes` from power-template.helper.js lines 121-134. -/
def getSignatureAttributes (item : Doclet) : List String :=
  (if item.optional then ["opt"] else []) ++
    (match item.nullable with
     | some true => ["nullable"]
     | some false => ["non-null"]
     | none => [])

/-- `updateItemName` from power-template.helper.js lines 192-204. -/
def updateItemName (item : Doclet) : String :=
  let attributes := getSignatureAttributes item
  let itemName := item.name.getD ("")
  let itemName := if item.variadic then "&hellip;" ++ itemName else itemName
  if attributes.length ≠ 0 then
    itemName ++ "<span class=\"signature-attributes\">" ++
      String.intercalate (", ") attributes ++ "</span>"
  else
    itemName

/-- `addParamAttributes` from power-template.helper.js lines 41-45. -/
def addParamAttributes (params : List Doclet) : List String :=
  (params.filter (fun param =>
    match param.name with
    | some n => !(n == "") && !(n.contains ('.'))
    | none => false)).map updateItemName

/-- `linkto` from power-template.helper.js lines 146-148: a direct
delegation to the host template helper. -/
def linkto (env : Host) (longName name : Option String) : String :=
  env.linkto longName name

/-- `buildItemTypeStrings` from power-template.helper.js lines 100-106
(uses the local `linkto` delegation). -/
def buildItemTypeStrings (env : Host) (item : Doclet) : List String :=
  match item.type with
  | some t =>
      match t.names with
      | some names => names.map (fun name => linkto env (some name) (some (env.htmlsafe name)))
      | none => []
  | none => []

/-- `buildAttribsString` from power-template.helper.js lines 92-98. -/
def buildAttribsString (env : Host) (attribs : List String) : String :=
  if attribs.length ≠ 0 then
    env.htmlsafe ("(" ++ String.intercalate (", ") attribs ++ ") ")
  else
    ""

/-- `addNonParamAttributes` from power-template.helper.js lines 33-39. -/
def addNonParamAttributes (env : Host) (items : Option (List Doclet)) : List String :=
  match items with
  | some l =>
      if l.length ≠ 0 then
        l.foldl (fun types item => types ++ buildItemTypeStrings env item) []
      else []
  | none => []

/-- `addSignatureParams` from power-template.helper.js lines 47-50. -/
def addSignatureParams (f : Doclet) : Doclet :=
  let params := match f.params with
    | some ps => addParamAttributes ps
    | none => []
  f.setSignature (some ((f.signature.getD ("")) ++ "(" ++ String.intercalate (", ") params ++ ")"))

/-- `addSignatureReturns` from power-template.helper.js lines 52-83. -/
def addSignatureReturns (env : Host) (f : Doclet) : Doclet :=
  let attribs := match f.returns with
    | some rs =>
        rs.foldl (fun acc item =>
          (env.getAttribs item).foldl (fun a attrib =>
            if a.contains attrib then a else a ++ [attrib]) acc) []
    | none => []
  let attribsString := match f.returns with
    | some _ => buildAttribsString env attribs
    | none => ""
  let returnTypes := match f.returns with
    | some _ => addNonParamAttributes env f.returns
    | none => []
  let returnTypesString :=
    if returnTypes.length ≠ 0 then
      " &rarr; " ++ attribsString ++ "\x7b" ++ String.intercalate ("|") returnTypes ++ "\x7d"
    else ""
  f.setSignature (some
    ("<span class=\"signature\">" ++ (f.signature.getD ("")) ++ "</span>" ++
     "<span class=\"type-signature\">" ++ returnTypesString ++ "</span>"))

/-- `addSignatureTypes` from power-template.helper.js lines 85-90. -/
def addSignatureTypes (env : Host) (f : Doclet) : Doclet :=
  let types := match f.type with
    | some _ => buildItemTypeStrings env f
    | none => []
  f.setSignature (some
    ((f.signature.getD ("")) ++ "<span class=\"type-signature\">" ++
     (if types.length ≠ 0 then " :" ++ String.intercalate ("|") types else "") ++ "</span>"))

/-- `addAttribs` from power-template.helper.js lines 27-31. -/
def addAttribs (env : Host) (f : Doclet) : Doclet :=
  let attribs := env.getAttribs f
  let attribsString := buildAttribsString env attribs
  f.setAttribs (some ("<span class=\"type-signature\">" ++ attribsString ++ "</span>"))

/-- `shortenPaths` from power-template.helper.js lines 177-182. -/
def shortenPaths {α : Type} (files : List (String × SourceFileEntry α))
    ( commonPrefix : String) : List (String × SourceFileEntry α) :=
  files.map (fun p =>
    (p.1, { p.2 with shortened := some (jsReplaceAllBackslash (jsReplaceFirst p.2.resolved commonPrefix)) }))

/-- `getPathFromDoclet` from power-template.helper.js lines 112-119. -/
def getPathFromDoclet (env : Host) (doclet : Doclet) : Option String :=
  match doclet.meta with
  | none => none
  | some m =>
      match m.path with
      | some p => if !(p == "") && !(p == "null") then some (env.pathJoin p m.filename) else some m.filename
      | none => some m.filename

/-- `hashToLink` from power-template.helper.js lines 136-144. -/
def hashToLink (env : Host) (doclet : Doclet) (hash : String) : String :=
  if !hashTestRe hash then hash
  else
    let url := env.createLink doclet
    let url := replaceHashRe url hash
    "<a href=\"" ++ url ++ "\">" ++ hash ++ "</a>"

end PowerHelper

/-- The `members` object built by the host's `templateHelper.getMembers`
plus `members.tutorials = tutorials.children` (publish.js lines 550-551). -/
structure Members where
  classes : List Doclet
  modules : List Doclet
  externals : List Doclet
  events : List Doclet
  namespaces : List Doclet
  mixins : List Doclet
  tutorials : List Doclet
  interfaces : List Doclet
  globals : List Doclet

namespace Publish

/-- Body of the `members.forEach` loop in `buildMemberNav`
(publish.js lines 292-297): the guard compares the boolean
`!member.scope` to the string `'static'` with `===`. -/
def memberSubItem (env : Host) (member : Doclet) : String :=
  if jsStrictEq (JsVal.bool (jsNot member.scope)) (JsVal.str ("static")) then ""
  else "<li data-type=\x27member\x27>" ++ env.linkto member.longname member.name ++ "</li>"

/-- The accumulated `<li>` fragments of the members sublist. -/
def membersSubList (env : Host) (members : List Doclet) : String :=
  strConcat (members.map (memberSubItem env))

/-- The static-members sublist of one nav item (publish.js lines
289-300): emitted when `docdash.static` is set and some member has
static scope. -/
def staticPart (env : Host) (members : List Doclet) : String :=
  if env.docdashStatic && members.any (fun mem => mem.scope == some ("static")) then
    "<ul class=\x27members\x27>" ++ membersSubList env members ++ "</ul>"
  else ""

/-- One `<li>` of the methods sublist (publish.js lines 305-309). -/
def methodSubItem (env : Host) (method : Doclet) : String :=
  "<li data-type=\x27method\x27>" ++ env.linkto method.longname method.name ++ "</li>"

/-- The methods sublist of one nav item (publish.js lines 302-312). -/
def methodsPart (env : Host) (methods : List Doclet) : String :=
  if methods.length ≠ 0 then
    "<ul class=\x27methods\x27>" ++ strConcat (methods.map (methodSubItem env)) ++ "</ul>"
  else ""

/-- The `<li>` fragment rendered for one nav item that is not skipped
(publish.js lines 283-314).  `methods` and `members` come from the two
taffy `find` queries on `item.longname`. -/
def itemFrag (env : Host) (f : Option String → Option String → String) (item : Doclet) : String :=
  match item.longname with
  | none => "<li>" ++ f (some ("")) item.name ++ "</li>"
  | some ln =>
      "<li>" ++ f (some ln) (item.name.map stripModule)
        ++ staticPart env (env.membersOf item.longname)
        ++ methodsPart env (env.methodsOf item.longname)
        ++ "</li>"

/-- The `items.forEach` loop of `buildMemberNav` (publish.js lines
278-317): accumulates `itemsNav` and marks rendered longnames in
`itemsSeen`.  Returns the accumulated string and the updated seen set. -/
def buildMemberNavLoop (env : Host) (f : Option String → Option String → String) :
    List Doclet → List String → String × List String
  | [], seen => ("", seen)
  | item :: rest, seen =>
      match item.longname with
      | none =>
          let r := buildMemberNavLoop env f rest seen
          (itemFrag env f item ++ r.1, r.2)
      | some ln =>
          if ln ∈ seen then buildMemberNavLoop env f rest seen
          else
            let r := buildMemberNavLoop env f rest (ln :: seen)
            (itemFrag env f item ++ r.1, r.2)

/-- `buildMemberNav` from publish.js lines 272-325.  The JS function
mutates `itemsSeen` in place; here the updated set is returned. -/
def buildMemberNav (env : Host) (items : List Doclet) (itemHeading : String)
    (itemsSeen : List String) (f : Option String → Option String → String) :
    String × List String :=
  if items.length ≠ 0 then
    let r := buildMemberNavLoop env f items itemsSeen
    (if r.1 ≠ "" then "<h3>" ++ itemHeading ++ "</h3><ul>" ++ r.1 ++ "</ul>" else "", r.2)
  else ("", itemsSeen)

/-- `linktoExternal` from publish.js lines 331-333. -/
def linktoExternalF (env : Host) : Option String → Option String → String :=
  fun longName name => env.linkto longName (name.map stripQuotes)

/-- `linktoTutorial` from publish.js lines 327-329 (`tutoriallink`
delegates to the host `toTutorial`). -/
def linktoTutorialF (env : Host) : Option String → Option String → String :=
  fun _ name => env.toTutorial name

/-- The fixed first line of the sidebar. -/
def homeHeading : String := "<h2><a href=\"index.html\">Home</a></h2>"

/-- The `<li>` fragment for one rendered global (publish.js line 368). -/
def globalFrag (env : Host) (g : Doclet) : String :=
  "<li>" ++ env.linkto g.longname g.name ++ "</li>"

/-- The `members.globals.forEach` loop of `buildNav` (publish.js lines
366-371): a global is rendered when its kind is not `typedef` and its
longname is unseen; every global's longname is then marked seen. -/
def globalsLoop (env : Host) : List Doclet → List String → String × List String
  | [], seen => ("", seen)
  | g :: rest, seen =>
      let frag := if g.kind ≠ some ("typedef") ∧ lnKey g.longname ∉ seen then globalFrag env g else ""
      let r := globalsLoop env rest (lnKey g.longname :: seen)
      (frag ++ r.1, r.2)

/-- `buildNav` from publish.js lines 349-382. -/
def buildNav (env : Host) (members : Members) : String :=
  let r1 := buildMemberNav env members.classes ("Classes") [] env.linkto
  let r2 := buildMemberNav env members.modules ("Modules") [] env.linkto
  let r3 := buildMemberNav env members.externals ("Externals") r1.2 (linktoExternalF env)
  let r4 := buildMemberNav env members.events ("Events") r3.2 env.linkto
  let r5 := buildMemberNav env members.namespaces ("Namespaces") r4.2 env.linkto
  let r6 := buildMemberNav env members.mixins ("Mixins") r5.2 env.linkto
  let r7 := buildMemberNav env members.tutorials ("Tutorials") [] (linktoTutorialF env)
  let r8 := buildMemberNav env members.interfaces ("Interfaces") r6.2 env.linkto
  let nav := homeHeading ++ r1.1 ++ r2.1 ++ r3.1 ++ r4.1 ++ r5.1 ++ r6.1 ++ r7.1 ++ r8.1
  if members.globals.length ≠ 0 then
    let g := globalsLoop env members.globals r8.2
    if g.1 = "" then
      nav ++ "<h3>" ++ env.linkto (some ("global")) (some ("Global")) ++ "</h3>"
    else
      nav ++ "<h3>Global</h3><ul>" ++ g.1 ++ "</ul>"
  else nav

end Publish

/-- The items of `items` that the `buildMemberNav` loop renders, given
the seen set at entry: an item is rendered when it has no `longname` or
its `longname` is not yet seen.  This depends only on the item list and
the seen set, not on the link functions or host. -/
def renderedItems : List Doclet → List String → List Doclet
  | [], _ => []
  | item :: rest, seen =>
      match item.longname with
      | none => item :: renderedItems rest seen
      | some ln =>
          if ln ∈ seen then renderedItems rest seen
          else item :: renderedItems rest (ln :: seen)

/-- The seen set after the `buildMemberNav` loop has processed `items`. -/
def seenAfter : List Doclet → List String → List String
  | [], seen => seen
  | item :: rest, seen =>
      match item.longname with
      | none => seenAfter rest seen
      | some ln =>
          if ln ∈ seen then seenAfter rest seen
          else seenAfter rest (ln :: seen)

/-- The longnames of the rendered, longname-bearing items, in render
order. -/
def renderedLNs : List Doclet → List String → List String
  | [], _ => []
  | item :: rest, seen =>
      match item.longname with
      | none => renderedLNs rest seen
      | some ln =>
          if ln ∈ seen then renderedLNs rest seen
          else ln :: renderedLNs rest (ln :: seen)

/-- The seen keys of the globals rendered by the `globals.forEach` loop,
in render order. -/
def globalsRenderedLNs : List Doclet → List String → List String
  | [], _ => []
  | g :: rest, seen =>
      if g.kind ≠ some ("typedef") ∧ lnKey g.longname ∉ seen then
        lnKey g.longname :: globalsRenderedLNs rest (lnKey g.longname :: seen)
      else
        globalsRenderedLNs rest (lnKey g.longname :: seen)

/-- Decides the spec phrase "every global is a typedef or already seen"
at the point the globals loop reaches it (every processed global marks
its key seen). -/
def allGlobalsSkipped : List Doclet → List String → Bool
  | [], _ => true
  | g :: rest, seen =>
      (g.kind == some ("typedef") || decide (lnKey g.longname ∈ seen)) &&
        allGlobalsSkipped rest (lnKey g.longname :: seen)

/-- Seen set threaded through a run of consecutive sections. -/
def seenChain : List (List Doclet) → List String → List String
  | [], seen => seen
  | items :: more, seen => seenChain more (seenAfter items seen)

/-- Rendered longnames accumulated across a run of consecutive sections
sharing one threaded seen set. -/
def renderedChainLNs : List (List Doclet) → List String → List String
  | [], _ => []
  | items :: more, seen => renderedLNs items seen ++ renderedChainLNs more (seenAfter items seen)

/-- Seen set after the Classes section (`buildNav` starts it empty). -/
def seenAfterClasses (m : Members) : List String := seenAfter m.classes []

/-- Seen set after the Externals section (threaded from Classes;
Modules uses a fresh set and does not contribute). -/
def seenAfterExternals (m : Members) : List String := seenAfter m.externals (seenAfterClasses m)

/-- Seen set after the Events section. -/
def seenAfterEvents (m : Members) : List String := seenAfter m.events (seenAfterExternals m)

/-- Seen set after the Namespaces section. -/
def seenAfterNamespaces (m : Members) : List String := seenAfter m.namespaces (seenAfterEvents m)

/-- Seen set after the Mixins section. -/
def seenAfterMixins (m : Members) : List String := seenAfter m.mixins (seenAfterNamespaces m)

/-- Seen set when the globals loop starts: after Interfaces (threaded
from Mixins; Tutorials uses a fresh set and does not contribute). -/
def seenBeforeGlobals (m : Members) : List String := seenAfter m.interfaces (seenAfterMixins m)

namespace Publish

/-- The Classes section string of the sidebar. -/
def navClasses (env : Host) (m : Members) : String :=
  (buildMemberNav env m.classes ("Classes") [] env.linkto).1

/-- The Modules section string (fresh, empty seen set). -/
def navModules (env : Host) (m : Members) : String :=
  (buildMemberNav env m.modules ("Modules") [] env.linkto).1

/-- The Externals section string. -/
def navExternals (env : Host) (m : Members) : String :=
  (buildMemberNav env m.externals ("Externals") (seenAfterClasses m) (linktoExternalF env)).1

/-- The Events section string. -/
def navEvents (env : Host) (m : Members) : String :=
  (buildMemberNav env m.events ("Events") (seenAfterExternals m) env.linkto).1

/-- The Namespaces section string. -/
def navNamespaces (env : Host) (m : Members) : String :=
  (buildMemberNav env m.namespaces ("Namespaces") (seenAfterEvents m) env.linkto).1

/-- The Mixins section string. -/
def navMixins (env : Host) (m : Members) : String :=
  (buildMemberNav env m.mixins ("Mixins") (seenAfterNamespaces m) env.linkto).1

/-- The Tutorials section string (fresh, empty seen set). -/
def navTutorials (env : Host) (m : Members) : String :=
  (buildMemberNav env m.tutorials ("Tutorials") [] (linktoTutorialF env)).1

/-- The Interfaces section string. -/
def navInterfaces (env : Host) (m : Members) : String :=
  (buildMemberNav env m.interfaces ("Interfaces") (seenAfterMixins m) env.linkto).1

/-- The sidebar up to (but excluding) the Global section, in the fixed
source order. -/
def navBase (env : Host) (m : Members) : String :=
  homeHeading ++ navClasses env m ++ navModules env m ++ navExternals env m ++
    navEvents env m ++ navNamespaces env m ++ navMixins env m ++
    navTutorials env m ++ navInterfaces env m

/-- The Global section string (publish.js lines 363-379): a plain
heading-link when no global was rendered, a heading plus list
otherwise. -/
def globalSection (env : Host) (m : Members) : String :=
  let g := (globalsLoop env m.globals (seenBeforeGlobals m)).1
  if g = "" then "<h3>" ++ env.linkto (some ("global")) (some ("Global")) ++ "</h3>"
  else "<h3>Global</h3><ul>" ++ g ++ "</ul>"

end Publish

/-- The rendered longnames of all sections sharing the threaded seen
set, plus the keys of the rendered globals, in sidebar order. -/
def sharedRenderedLNs (m : Members) : List String :=
  renderedChainLNs [m.classes, m.externals, m.events, m.namespaces, m.mixins, m.interfaces] [] ++
    globalsRenderedLNs m.globals (seenBeforeGlobals m)

/-- The `{kind: 'source', code: ...}` object built for a listing page. -/
structure SourceDoc where
  kind : String
  code : String
deriving DecidableEq

/-- One call of `generate` (publish.js lines 195-211): the page written
to disk.  `docs` is the `[source]` array; a `none` entry is the
`undefined` that `source` still holds when the file read threw. -/
structure SourcePage where
  type : String
  title : Option String
  docs : List (Option SourceDoc)
  outfile : String
  resolveLinks : Bool
deriving DecidableEq

namespace Publish

/-- `generateSourceFiles` from publish.js lines 213-234.  Returns the
listing pages passed to `generate`, in order, and the error messages
logged by the `catch` (`logger.error` with `util.format`).  Note the
`generate` call sits after the `try/catch`, so it runs for every file
whether or not the read succeeded. -/
def generateSourceFiles (env : Host) (sourceFiles : List (String × SourceFileEntry Unit))
    (encoding : Option String) : List SourcePage × List String :=
  let enc := encoding.getD ("utf8")
  sourceFiles.foldl
    (fun acc fp =>
      let sourceOutfile := env.getUniqueFilename fp.2.shortened
      match env.readFile fp.2.resolved enc with
      | Except.ok contents =>
          (acc.1 ++ [{ type := "Source", title := fp.2.shortened,
                       docs := [some { kind := "source", code := env.htmlsafe contents }],
                       outfile := sourceOutfile, resolveLinks := false }], acc.2)
      | Except.error msg =>
          (acc.1 ++ [{ type := "Source", title := fp.2.shortened,
                       docs := [none],
                       outfile := sourceOutfile, resolveLinks := false }],
           acc.2 ++ ["Error while generating source file " ++ fp.1 ++ ": " ++ msg]))
    ([], [])

end Publish

/-- The listing page `generateSourceFiles` produces for one entry of the
`sourceFiles` map. -/
def sourcePageFor (env : Host) (enc : String) (fp : String × SourceFileEntry Unit) : SourcePage :=
  match env.readFile fp.2.resolved enc with
  | Except.ok contents =>
      { type := "Source", title := fp.2.shortened,
        docs := [some { kind := "source", code := env.htmlsafe contents }],
        outfile := env.getUniqueFilename fp.2.shortened, resolveLinks := false }
  | Except.error _ =>
      { type := "Source", title := fp.2.shortened,
        docs := [none],
        outfile := env.getUniqueFilename fp.2.shortened, resolveLinks := false }

/-- The error lines logged while generating the listings: one per entry
whose read failed. -/
def sourceErrorLogs (env : Host) (enc : String) : List (String × SourceFileEntry Unit) → List String
  | [] => []
  | fp :: rest =>
      match env.readFile fp.2.resolved enc with
      | Except.ok _ => sourceErrorLogs env enc rest
      | Except.error msg =>
          ("Error while generating source file " ++ fp.1 ++ ": " ++ msg) :: sourceErrorLogs env enc rest

/-- The `{kind: 'package'}` doclet fields `publish` reads when updating
`outdir` (publish.js lines 459-462). -/
structure PackageInfo where
  name : Option String
  version : Option String
deriving DecidableEq

/-- The successive values assigned to the process-local `outdir`
variable during one publish run: the module-load initialisation
`path.normalize(env.opts.destination)` (publish.js line 15), then, when
a package doclet with a truthy name exists, the reassignment
`outdir = path.join(outdir, packageInfo.name, packageInfo.version || '')`
(publish.js line 461). -/
def outdirAssignments (env : Host) (destination : String) (packageInfo : Option PackageInfo) :
    List String :=
  let o1 := env.pathNormalize destination
  match packageInfo with
  | some p =>
      match p.name with
      | some n => if !(n == "") then [o1, env.pathJoin3 o1 n (p.version.getD (""))] else [o1]
      | none => [o1]
  | none => [o1]

/-- The value `outdir` holds for the rest of the run, i.e. when
`fs.mkPath(outdir)` and every `generate` call read it. -/
def outdirFinal (env : Host) (destination : String) (packageInfo : Option PackageInfo) : String :=
  let o1 := env.pathNormalize destination
  match packageInfo with
  | some p =>
      match p.name with
      | some n => if !(n == "") then env.pathJoin3 o1 n (p.version.getD ("")) else o1
      | none => o1
  | none => o1

/-- The output paths of the files a run writes: every `generate` and
`generateTutorial` call joins its filename against the same `outdir`
value, which is no longer reassigned once page generation starts
(publish.js lines 204, 636). -/
def publishWrites (env : Host) (destination : String) (packageInfo : Option PackageInfo)
    (filenames : List String) : List (String × String) :=
  filenames.map (fun f => (env.pathJoin (outdirFinal env destination packageInfo) f, f))

/-- The values assigned to the process-local template handle `view`:
exactly one, at publish.js line 397. -/
def viewAssignments (templatePath : String) : List String :=
  [templatePath ++ "/tmpl"]

mutual
/-- A tutorial node: `{name, title, children}` as read by
`saveChildren`/`generateTutorial` (publish.js lines 628-652).  The
host's tutorial hierarchy gives every node at most one parent, which
the inductive tree models exactly. -/
inductive Tutorial where
  | node : String → String → TutorialList → Tutorial
/-- The children array of a tutorial node. -/
inductive TutorialList where
  | nil : TutorialList
  | cons : Tutorial → TutorialList → TutorialList
end

def Tutorial.name : Tutorial → String
  | Tutorial.node n _ _ => n

def Tutorial.title : Tutorial → String
  | Tutorial.node _ t _ => t

def Tutorial.children : Tutorial → TutorialList
  | Tutorial.node _ _ c => c

/-- One tutorial page written by `generateTutorial`: its display title
and its output filename `helper.tutorialToUrl(child.name)`. -/
structure TutPage where
  title : String
  filename : String
deriving DecidableEq

/-- The page `saveChildren` generates for one tutorial node `c`:
`generateTutorial('Tutorial: ' + child.title, child, tutorialToUrl(child.name))`. -/
def tutPage (u : String → String) (t : Tutorial) : TutPage :=
  { title := "Tutorial: " ++ t.title, filename := u t.name }

mutual
/-- `saveChildren` from publish.js lines 645-650: for each child,
generate its page, then recurse; `u` is the host `tutorialToUrl`.
Returns the generated pages in generation order. -/
def saveChildren (u : String → String) : Tutorial → List TutPage
  | Tutorial.node _ _ cs => saveChildrenList u cs
/-- The `node.children.forEach` loop of `saveChildren`. -/
def saveChildrenList (u : String → String) : TutorialList → List TutPage
  | TutorialList.nil => []
  | TutorialList.cons child rest =>
      tutPage u child :: (saveChildren u child ++ saveChildrenList u rest)
end

mutual
/-- The proper descendants of a tutorial node, in the traversal order of
`saveChildren`. -/
def properDescendants : Tutorial → List Tutorial
  | Tutorial.node _ _ cs => descendantsList cs
/-- Descendant collection over a children array. -/
def descendantsList : TutorialList → List Tutorial
  | TutorialList.nil => []
  | TutorialList.cons child rest =>
      child :: (properDescendants child ++ descendantsList rest)
end

/-- The entries of `doclet.type.names`, empty when `type` or `names` is
missing. -/
def typeNamesOf (d : Doclet) : List String :=
  match d.type with
  | some t => t.names.getD []
  | none => []

/-- A concrete host environment used by the closed witness and
counterexample theorems: every host function is a simple total
function. -/
def envW : Host where
  getAttribs := fun _ => []
  htmlsafe := fun s => s
  linkto := fun l n => "[" ++ lnKey l ++ "|" ++ lnKey n ++ "]"
  createLink := fun _ => "doc.html"
  pathJoin := fun a b => a ++ "/" ++ b
  pathJoin3 := fun a b c => a ++ "/" ++ b ++ "/" ++ c
  pathNormalize := fun s => s
  toTutorial := fun n => "<em>" ++ lnKey n ++ "</em>"
  methodsOf := fun _ => []
  membersOf := fun _ => []
  docdashStatic := true
  readFile := fun p _ =>
    if p == "/src/good.js" then Except.ok ("let x = 1;")
    else Except.error ("ENOENT: no such file")
  getUniqueFilename := fun n => lnKey n ++ ".html"

/-- A two-entry `sourceFiles` map whose second entry fails to read under
`envW.readFile`. -/
def filesC1 : List (String × SourceFileEntry Unit) :=
  [("good.js", { resolved := "/src/good.js", shortened := some ("good.js"), extra := () }),
   ("bad.js", { resolved := "/src/bad.js", shortened := some ("bad.js"), extra := () })]

/-- C2: for every input, `parse` exposes exactly the two boolean flags:
`shouldDisplayStaticMembers` is the `displayStaticMembers` field when it
is exactly true or exactly false and `false` otherwise (including for a
null/undefined input), and `shouldSort` is the `sort` field when it is
exactly true or exactly false and `true` otherwise. -/
theorem parse_two_flags : ∀ object : Option PowerModeSettings,
    ((parse object).shouldDisplayStaticMembers =
      match object with
      | some s =>
          (match s.displayStaticMembers with
           | JsBoolish.jsTrue => true
           | JsBoolish.jsFalse => false
           | JsBoolish.otherVal => false)
      | none => false) ∧
    ((parse object).shouldSort =
      match object with
      | some s =>
          (match s.sort with
           | JsBoolish.jsTrue => true
           | JsBoolish.jsFalse => false
           | JsBoolish.otherVal => true)
      | none => true) := by
  intro object
  rcases object with _ | ⟨dsm, st⟩
  · exact ⟨rfl, rfl⟩
  · exact ⟨by cases dsm <;> rfl, by cases st <;> rfl⟩

/-- Characterization of `needsSignature`, shared by both claim
theorems that mention it. -/
theorem needsSignature_eq_aux (d : Doclet) :
    Publish.needsSignature d =
      (d.kind == some ("function") || d.kind == some ("class") ||
        (d.kind == some ("typedef") && (typeNamesOf d).any (fun n => n.toLower == "function"))) := by
  unfold Publish.needsSignature typeNamesOf
  cases hf : (d.kind == some ("function") || d.kind == some ("class")) with
  | true => simp [hf]
  | false =>
      simp only [Bool.or_eq_false_iff] at hf
      cases ht : (d.kind == some ("typedef")) with
      | true =>
          rcases htype : d.type with _ | t
          · simp [hf.1, hf.2, ht, htype]
          · rcases hnames : t.names with _ | names
            · simp [hf.1, hf.2, ht, htype, hnames]
            · simp [hf.1, hf.2, ht, htype, hnames]
      | false => simp [hf.1, hf.2, ht]

/-- C3: a doclet needs a display signature if and only if its kind is
`function` or `class`, or its kind is `typedef` and some entry of
`doclet.type.names` equals `function` case-insensitively; both copies of
`needsSignature` agree on this. -/
theorem needsSignature_characterization : ∀ d : Doclet,
    (Publish.needsSignature d =
      (d.kind == some ("function") || d.kind == some ("class") ||
        (d.kind == some ("typedef") && (typeNamesOf d).any (fun n => n.toLower == "function")))) ∧
    (PowerHelper.needsSignature d =
      (d.kind == some ("function") || d.kind == some ("class") ||
        (d.kind == some ("typedef") && (typeNamesOf d).any (fun n => n.toLower == "function")))) := by
  intro d
  refine ⟨needsSignature_eq_aux d, ?_⟩
  have h : PowerHelper.needsSignature d = Publish.needsSignature d := rfl
  rw [h]
  exact needsSignature_eq_aux d

/-- C5: `shortenPaths` maps every entry to the same key with `shortened`
set to the resolved path minus the first occurrence of the common prefix
and with backslashes replaced by forward slashes, keeping `resolved` and
all other fields; the key list of the map is unchanged. -/
theorem shortenPaths_spec : ∀ (α : Type) (files : List (String × SourceFileEntry α))
    ( commonPrefix : String),
    Publish.shortenPaths files commonPrefix =
      files.map (fun p => (p.1,
        { resolved := p.2.resolved,
          shortened := some (jsReplaceAllBackslash (jsReplaceFirst p.2.resolved commonPrefix)),
          extra := p.2.extra })) ∧
    (Publish.shortenPaths files commonPrefix).map Prod.fst = files.map Prod.fst := by
  intro α files pre
  constructor
  · rfl
  · simp [Publish.shortenPaths, List.map_map]

/-- C8: every formatting helper exported by power-template.helper.js is
extensionally equal to the same-named function in publish.js: on every
input the two copies return the same value, and the signature/attribs
updates produce the same updated doclet. -/
theorem helper_functions_extensionally_equal (env : Host) :
    (∀ d : Doclet, Publish.needsSignature d = PowerHelper.needsSignature d) ∧
    (∀ d : Doclet, Publish.getSignatureAttributes d = PowerHelper.getSignatureAttributes d) ∧
    (∀ d : Doclet, Publish.updateItemName d = PowerHelper.updateItemName d) ∧
    (∀ ps : List Doclet, Publish.addParamAttributes ps = PowerHelper.addParamAttributes ps) ∧
    (∀ d : Doclet, Publish.buildItemTypeStrings env d = PowerHelper.buildItemTypeStrings env d) ∧
    (∀ l : List String, Publish.buildAttribsString env l = PowerHelper.buildAttribsString env l) ∧
    (∀ its : Option (List Doclet),
      Publish.addNonParamAttributes env its = PowerHelper.addNonParamAttributes env its) ∧
    (∀ d : Doclet, Publish.addSignatureParams d = PowerHelper.addSignatureParams d) ∧
    (∀ d : Doclet, Publish.addSignatureReturns env d = PowerHelper.addSignatureReturns env d) ∧
    (∀ d : Doclet, Publish.addSignatureTypes env d = PowerHelper.addSignatureTypes env d) ∧
    (∀ d : Doclet, Publish.addAttribs env d = PowerHelper.addAttribs env d) ∧
    (∀ (α : Type) (files : List (String × SourceFileEntry α)) (pre : String),
      Publish.shortenPaths files pre = PowerHelper.shortenPaths files pre) ∧
    (∀ d : Doclet, Publish.getPathFromDoclet env d = PowerHelper.getPathFromDoclet env d) ∧
    (∀ (d : Doclet) (h : String), Publish.hashToLink env d h = PowerHelper.hashToLink env d h) :=
  ⟨fun _ => rfl, fun _ => rfl, fun _ => rfl, fun _ => rfl, fun _ => rfl, fun _ => rfl,
   fun _ => rfl, fun _ => rfl, fun _ => rfl, fun _ => rfl, fun _ => rfl,
   fun _ _ _ => rfl, fun _ => rfl, fun _ _ => rfl⟩

mutual
/-- `saveChildren` produces exactly the pages of the proper descendants,
in traversal order. -/
theorem saveChildren_eq_aux (u : String → String) :
    (t : Tutorial) → saveChildren u t = (properDescendants t).map (tutPage u)
  | Tutorial.node _ _ cs => by
      simp only [saveChildren, properDescendants]
      exact saveChildrenList_eq_aux u cs
/-- List version of `saveChildren_eq_aux`. -/
theorem saveChildrenList_eq_aux (u : String → String) :
    (l : TutorialList) → saveChildrenList u l = (descendantsList l).map (tutPage u)
  | TutorialList.nil => by simp [saveChildrenList, descendantsList]
  | TutorialList.cons child rest => by
      simp only [saveChildrenList, descendantsList, List.map_cons, List.map_append]
      rw [saveChildren_eq_aux u child, saveChildrenList_eq_aux u rest]
end

/-- C7: for every tutorial tree (the inductive tree gives each node at
most one parent and no cycles), `saveChildren` terminates — it is a
total function — and generates exactly one tutorial page per proper
descendant of the root. -/
theorem tutorial_pages_one_per_descendant : ∀ (u : String → String) (t : Tutorial),
    saveChildren u t = (properDescendants t).map (tutPage u) ∧
    (saveChildren u t).length = (properDescendants t).length := by
  intro u t
  refine ⟨saveChildren_eq_aux u t, ?_⟩
  rw [saveChildren_eq_aux u t]
  simp

/-- Unfolds the `generateSourceFiles` fold from an arbitrary
accumulator into the per-entry page list and error log. -/
theorem generateSourceFiles_fold_aux (env : Host) (e : String) :
    ∀ (files : List (String × SourceFileEntry Unit)) (acc : List SourcePage × List String),
      files.foldl
        (fun acc fp =>
          let sourceOutfile := env.getUniqueFilename fp.2.shortened
          match env.readFile fp.2.resolved e with
          | Except.ok contents =>
              (acc.1 ++ [{ type := "Source", title := fp.2.shortened,
                           docs := [some { kind := "source", code := env.htmlsafe contents }],
                           outfile := sourceOutfile, resolveLinks := false }], acc.2)
          | Except.error msg =>
              (acc.1 ++ [{ type := "Source", title := fp.2.shortened,
                           docs := [none],
                           outfile := sourceOutfile, resolveLinks := false }],
               acc.2 ++ ["Error while generating source file " ++ fp.1 ++ ": " ++ msg]))
        acc =
      (acc.1 ++ files.map (sourcePageFor env e), acc.2 ++ sourceErrorLogs env e files) := by
  intro files
  induction files with
  | nil => intro acc; simp [sourceErrorLogs]
  | cons fp rest ih =>
      intro acc
      simp only [List.foldl_cons, List.map_cons, sourceErrorLogs]
      rcases hr : env.readFile fp.2.resolved e with msg | contents
      · simp only [hr]
        rw [ih]
        simp [sourcePageFor, hr, List.append_assoc]
      · simp only [hr]
        rw [ih]
        simp [sourcePageFor, hr, List.append_assoc]

/-- C1 amended: when a source file cannot be read, the error is logged
and processing continues with the remaining files, but a listing page is
still written for the failed file (its docs array holds the undefined
`source`); exactly one listing page is written for every entry of the
source-file map, whether or not its read succeeded, and the logged
errors are exactly those of the failing reads. -/
theorem generateSourceFiles_one_page_per_entry :
    ∀ (env : Host) (files : List (String × SourceFileEntry Unit)) (encoding : Option String),
      (Publish.generateSourceFiles env files encoding).1 =
        files.map (sourcePageFor env (encoding.getD ("utf8"))) ∧
      (Publish.generateSourceFiles env files encoding).1.length = files.length ∧
      (Publish.generateSourceFiles env files encoding).2 =
        sourceErrorLogs env (encoding.getD ("utf8")) files := by
  intro env files encoding
  unfold Publish.generateSourceFiles
  rw [generateSourceFiles_fold_aux env (encoding.getD ("utf8")) files ([], [])]
  simp

/-- C1 counterexample: with `envW`, reading `/src/bad.js` fails and the
error is logged, yet a listing page for `bad.js` is still generated
(with an undefined source doc) — the claim's "producing no listing page
for it" is false, and the page count equals the file count, not the
count of successful reads. -/
theorem generateSourceFiles_failed_read_still_generates :
    ((Publish.generateSourceFiles envW filesC1 none).1.map SourcePage.title) =
        [some ("good.js"), some ("bad.js")] ∧
      (Publish.generateSourceFiles envW filesC1 none).2 =
        ["Error while generating source file bad.js: ENOENT: no such file"] ∧
      ((Publish.generateSourceFiles envW filesC1 none).1.map SourcePage.docs) =
        [[some { kind := "source", code := "let x = 1;" }], [none]] := by
  decide

/-- C6 amended: `outdir` is assigned at module load and reassigned at
most once — appending the package name and version when a named package
doclet exists — before any file is created; the template handle `view`
is assigned exactly once; every file write of the run joins its
filename against the one final `outdir` value. -/
theorem outdir_set_then_only_read :
    ∀ (env : Host) (destination : String) (packageInfo : Option PackageInfo)
      (filenames : List String) (templatePath : String),
      (outdirAssignments env destination packageInfo).length ≤ 2 ∧
      (outdirAssignments env destination packageInfo).head? =
        some (env.pathNormalize destination) ∧
      (outdirAssignments env destination packageInfo).getLast? =
        some (outdirFinal env destination packageInfo) ∧
      publishWrites env destination packageInfo filenames =
        filenames.map (fun f => (env.pathJoin (outdirFinal env destination packageInfo) f, f)) ∧
      (viewAssignments templatePath).length = 1 := by
  intro env destination packageInfo filenames templatePath
  rcases packageInfo with _ | p
  · exact ⟨by simp [outdirAssignments], by simp [outdirAssignments],
      by simp [outdirAssignments, outdirFinal], rfl, rfl⟩
  · rcases hn : p.name with _ | n
    · exact ⟨by simp [outdirAssignments, hn], by simp [outdirAssignments, hn],
        by simp [outdirAssignments, outdirFinal, hn], rfl, rfl⟩
    · cases he : (n == "") with
      | true =>
          exact ⟨by simp [outdirAssignments, hn, he], by simp [outdirAssignments, hn, he],
            by simp [outdirAssignments, outdirFinal, hn, he], rfl, rfl⟩
      | false =>
          exact ⟨by simp [outdirAssignments, hn, he], by simp [outdirAssignments, hn, he],
            by simp [outdirAssignments, outdirFinal, hn, he], rfl, rfl⟩

/-- C6 counterexample: in a run whose doclet collection contains a
package doclet named `pkg`, the output-directory variable is assigned
twice — `path.normalize('docs')` at module load and
`path.join('docs', 'pkg', '')` inside `publish` — so it is not "set once
with no later reassignment" as claimed. -/
theorem outdir_reassigned_counterexample :
    outdirAssignments envW ("docs") (some { name := some ("pkg"), version := none }) =
      ["docs", "docs/pkg/"] ∧
    (outdirAssignments envW ("docs") (some { name := some ("pkg"), version := none })).length = 2 := by
  decide

/-- Two appended strings are empty exactly when both are. -/
theorem string_append_eq_empty_iff (a b : String) : a ++ b = "" ↔ a = "" ∧ b = "" := by
  constructor
  · intro h
    have hd : a.data ++ b.data = [] := by
      have hc := congrArg String.data h
      simpa [String.data_append] using hc
    rcases List.append_eq_nil.mp hd with ⟨ha, hb⟩
    exact ⟨String.ext (by rw [ha]), String.ext (by rw [hb])⟩
  · rintro ⟨ha, hb⟩
    rw [ha, hb]
    rfl

/-- `strConcat` is empty exactly when every piece is. -/
theorem strConcat_eq_empty_iff : ∀ l : List String, strConcat l = "" ↔ ∀ s ∈ l, s = "" := by
  intro l
  induction l with
  | nil => simp [strConcat]
  | cons s rest ih => simp [strConcat, string_append_eq_empty_iff, ih]

/-- A rendered nav-item fragment is never the empty string. -/
theorem itemFrag_ne_empty (env : Host) (f : Option String → Option String → String)
    (item : Doclet) : Publish.itemFrag env f item ≠ "" := by
  unfold Publish.itemFrag
  rcases item.longname with _ | ln
  · intro hc
    exact absurd ((string_append_eq_empty_iff _ _).mp hc).2 (by decide)
  · intro hc
    exact absurd ((string_append_eq_empty_iff _ _).mp hc).2 (by decide)

/-- A rendered global fragment is never the empty string. -/
theorem globalFrag_ne_empty (env : Host) (g : Doclet) : Publish.globalFrag env g ≠ "" := by
  unfold Publish.globalFrag
  intro hc
  exact absurd ((string_append_eq_empty_iff _ _).mp hc).2 (by decide)

/-- The `buildMemberNav` loop accumulates exactly the fragments of the
rendered items. -/
theorem buildMemberNavLoop_fst (env : Host) (f : Option String → Option String → String) :
    ∀ (items : List Doclet) (seen : List String),
      (Publish.buildMemberNavLoop env f items seen).1 =
        strConcat ((renderedItems items seen).map (Publish.itemFrag env f)) := by
  intro items
  induction items with
  | nil => intro seen; rfl
  | cons item rest ih =>
      intro seen
      rcases h : item.longname with _ | ln
      · simp [Publish.buildMemberNavLoop, renderedItems, h, strConcat, ih]
      · by_cases hm : ln ∈ seen
        · simp [Publish.buildMemberNavLoop, renderedItems, h, hm, ih]
        · simp [Publish.buildMemberNavLoop, renderedItems, h, hm, strConcat, ih]

/-- The `buildMemberNav` loop updates the seen set to `seenAfter`. -/
theorem buildMemberNavLoop_snd (env : Host) (f : Option String → Option String → String) :
    ∀ (items : List Doclet) (seen : List String),
      (Publish.buildMemberNavLoop env f items seen).2 = seenAfter items seen := by
  intro items
  induction items with
  | nil => intro seen; rfl
  | cons item rest ih =>
      intro seen
      rcases h : item.longname with _ | ln
      · simp [Publish.buildMemberNavLoop, seenAfter, h, ih]
      · by_cases hm : ln ∈ seen
        · simp [Publish.buildMemberNavLoop, seenAfter, h, hm, ih]
        · simp [Publish.buildMemberNavLoop, seenAfter, h, hm, ih]

/-- `buildMemberNav` updates the seen set to `seenAfter` (also when the
item list is empty and the loop never runs). -/
theorem buildMemberNav_snd (env : Host) (items : List Doclet) (heading : String)
    (seen : List String) (f : Option String → Option String → String) :
    (Publish.buildMemberNav env items heading seen f).2 = seenAfter items seen := by
  unfold Publish.buildMemberNav
  by_cases h : items.length ≠ 0
  · simp only [if_pos h]
    exact buildMemberNavLoop_snd env f items seen
  · simp only [if_neg h]
    have hnil : items = [] := List.length_eq_zero.mp (not_not.mp h)
    rw [hnil]
    rfl

/-- Thread-safety of membership: the seen set only grows. -/
theorem mem_seenAfter_mono : ∀ (items : List Doclet) (seen : List String) (l : String),
    l ∈ seen → l ∈ seenAfter items seen := by
  intro items
  induction items with
  | nil => intro seen l h; exact h
  | cons item rest ih =>
      intro seen l h
      rcases hl : item.longname with _ | ln
      · simp only [seenAfter, hl]
        exact ih seen l h
      · by_cases hm : ln ∈ seen
        · simp only [seenAfter, hl, if_pos hm]
          exact ih seen l h
        · simp only [seenAfter, hl, if_neg hm]
          exact ih (ln :: seen) l (List.mem_cons_of_mem ln h)

/-- A rendered longname was not in the seen set at section entry. -/
theorem renderedLNs_not_mem_seen : ∀ (items : List Doclet) (seen : List String) (l : String),
    l ∈ renderedLNs items seen → l ∉ seen := by
  intro items
  induction items with
  | nil => intro seen l h; simp [renderedLNs] at h
  | cons item rest ih =>
      intro seen l h
      rcases hl : item.longname with _ | ln
      · simp only [renderedLNs, hl] at h
        exact ih seen l h
      · by_cases hm : ln ∈ seen
        · simp only [renderedLNs, hl, if_pos hm] at h
          exact ih seen l h
        · simp only [renderedLNs, hl, if_neg hm] at h
          rcases List.mem_cons.mp h with h | h
          · rw [h]; exact hm
          · intro hs
            exact ih (ln :: seen) l h (List.mem_cons_of_mem ln hs)

/-- Every rendered longname is marked in the updated seen set. -/
theorem renderedLNs_mem_seenAfter : ∀ (items : List Doclet) (seen : List String) (l : String),
    l ∈ renderedLNs items seen → l ∈ seenAfter items seen := by
  intro items
  induction items with
  | nil => intro seen l h; simp [renderedLNs] at h
  | cons item rest ih =>
      intro seen l h
      rcases hl : item.longname with _ | ln
      · simp only [renderedLNs, hl] at h
        simp only [seenAfter, hl]
        exact ih seen l h
      · by_cases hm : ln ∈ seen
        · simp only [renderedLNs, hl, if_pos hm] at h
          simp only [seenAfter, hl, if_pos hm]
          exact ih seen l h
        · simp only [renderedLNs, hl, if_neg hm] at h
          simp only [seenAfter, hl, if_neg hm]
          rcases List.mem_cons.mp h with h | h
          · exact mem_seenAfter_mono rest (ln :: seen) l (h ▸ List.mem_cons_self ln seen)
          · exact ih (ln :: seen) l h

/-- Within one section, no longname is rendered twice. -/
theorem renderedLNs_nodup : ∀ (items : List Doclet) (seen : List String),
    (renderedLNs items seen).Nodup := by
  intro items
  induction items with
  | nil => intro seen; simp [renderedLNs]
  | cons item rest ih =>
      intro seen
      rcases hl : item.longname with _ | ln
      · simp only [renderedLNs, hl]
        exact ih seen
      · by_cases hm : ln ∈ seen
        · simp only [renderedLNs, hl, if_pos hm]
          exact ih seen
        · simp only [renderedLNs, hl, if_neg hm]
          refine List.nodup_cons.mpr ⟨?_, ih (ln :: seen)⟩
          intro hc
          exact renderedLNs_not_mem_seen rest (ln :: seen) ln hc (List.mem_cons_self ln seen)

/-- `renderedLNs` is exactly the longnames of the rendered items. -/
theorem renderedLNs_eq_filterMap : ∀ (items : List Doclet) (seen : List String),
    renderedLNs items seen = (renderedItems items seen).filterMap Doclet.longname := by
  intro items
  induction items with
  | nil => intro seen; rfl
  | cons item rest ih =>
      intro seen
      rcases hl : item.longname with _ | ln
      · simp [renderedLNs, renderedItems, hl, List.filterMap_cons, ih]
      · by_cases hm : ln ∈ seen
        · simp [renderedLNs, renderedItems, hl, hm, ih]
        · simp [renderedLNs, renderedItems, hl, hm, List.filterMap_cons, ih]

/-- Membership also survives a whole chain of sections. -/
theorem mem_seenChain_mono : ∀ (ls : List (List Doclet)) (seen : List String) (l : String),
    l ∈ seen → l ∈ seenChain ls seen := by
  intro ls
  induction ls with
  | nil => intro seen l h; exact h
  | cons items more ih =>
      intro seen l h
      exact ih (seenAfter items seen) l (mem_seenAfter_mono items seen l h)

/-- Longnames rendered across a chain were unseen at chain entry. -/
theorem renderedChainLNs_not_mem_seen :
    ∀ (ls : List (List Doclet)) (seen : List String) (l : String),
      l ∈ renderedChainLNs ls seen → l ∉ seen := by
  intro ls
  induction ls with
  | nil => intro seen l h; simp [renderedChainLNs] at h
  | cons items more ih =>
      intro seen l h hs
      rw [renderedChainLNs] at h
      rcases List.mem_append.mp h with h | h
      · exact renderedLNs_not_mem_seen items seen l h hs
      · exact ih (seenAfter items seen) l h (mem_seenAfter_mono items seen l hs)

/-- Longnames rendered across a chain are marked in the final seen set. -/
theorem renderedChainLNs_mem_seenChain :
    ∀ (ls : List (List Doclet)) (seen : List String) (l : String),
      l ∈ renderedChainLNs ls seen → l ∈ seenChain ls seen := by
  intro ls
  induction ls with
  | nil => intro seen l h; simp [renderedChainLNs] at h
  | cons items more ih =>
      intro seen l h
      rw [renderedChainLNs] at h
      rw [seenChain]
      rcases List.mem_append.mp h with h | h
      · exact mem_seenChain_mono more (seenAfter items seen) l
          (renderedLNs_mem_seenAfter items seen l h)
      · exact ih (seenAfter items seen) l h

/-- Across all sections sharing one threaded seen set, no longname is
rendered twice. -/
theorem renderedChainLNs_nodup : ∀ (ls : List (List Doclet)) (seen : List String),
    (renderedChainLNs ls seen).Nodup := by
  intro ls
  induction ls with
  | nil => intro seen; simp [renderedChainLNs]
  | cons items more ih =>
      intro seen
      rw [renderedChainLNs]
      refine List.nodup_append.mpr ⟨renderedLNs_nodup items seen, ih (seenAfter items seen), ?_⟩
      intro l hl hlm
      exact renderedChainLNs_not_mem_seen more (seenAfter items seen) l hlm
        (renderedLNs_mem_seenAfter items seen l hl)

/-- A rendered global's key was unseen when the globals loop started. -/
theorem globalsRenderedLNs_not_mem_seen :
    ∀ (gs : List Doclet) (seen : List String) (l : String),
      l ∈ globalsRenderedLNs gs seen → l ∉ seen := by
  intro gs
  induction gs with
  | nil => intro seen l h; simp [globalsRenderedLNs] at h
  | cons g rest ih =>
      intro seen l h hs
      by_cases hc : g.kind ≠ some ("typedef") ∧ lnKey g.longname ∉ seen
      · rw [globalsRenderedLNs, if_pos hc] at h
        rcases List.mem_cons.mp h with h | h
        · exact hc.2 (h ▸ hs)
        · exact ih (lnKey g.longname :: seen) l h (List.mem_cons_of_mem _ hs)
      · rw [globalsRenderedLNs, if_neg hc] at h
        exact ih (lnKey g.longname :: seen) l h (List.mem_cons_of_mem _ hs)

/-- The globals loop renders no key twice. -/
theorem globalsRenderedLNs_nodup : ∀ (gs : List Doclet) (seen : List String),
    (globalsRenderedLNs gs seen).Nodup := by
  intro gs
  induction gs with
  | nil => intro seen; simp [globalsRenderedLNs]
  | cons g rest ih =>
      intro seen
      by_cases hc : g.kind ≠ some ("typedef") ∧ lnKey g.longname ∉ seen
      · rw [globalsRenderedLNs, if_pos hc]
        refine List.nodup_cons.mpr ⟨?_, ih (lnKey g.longname :: seen)⟩
        intro h
        exact globalsRenderedLNs_not_mem_seen rest (lnKey g.longname :: seen) _ h
          (List.mem_cons_self _ seen)
      · rw [globalsRenderedLNs, if_neg hc]
        exact ih (lnKey g.longname :: seen)

/-- The seen set threaded to the globals loop is the chain of the six
shared sections. -/
theorem seenChain_shared_eq (m : Members) :
    seenChain [m.classes, m.externals, m.events, m.namespaces, m.mixins, m.interfaces] [] =
      seenBeforeGlobals m := by
  simp [seenChain, seenBeforeGlobals, seenAfterMixins, seenAfterNamespaces, seenAfterEvents,
    seenAfterExternals, seenAfterClasses]

/-- Across the sections sharing the threaded seen set — Classes,
Externals, Events, Namespaces, Mixins, Interfaces and the Global list —
no longname key is rendered twice. -/
theorem sharedRenderedLNs_nodup (m : Members) : (sharedRenderedLNs m).Nodup := by
  rw [sharedRenderedLNs]
  refine List.nodup_append.mpr
    ⟨renderedChainLNs_nodup _ [], globalsRenderedLNs_nodup _ _, ?_⟩
  intro l hl hg
  have h1 := renderedChainLNs_mem_seenChain _ [] l hl
  rw [seenChain_shared_eq m] at h1
  exact globalsRenderedLNs_not_mem_seen m.globals (seenBeforeGlobals m) l hg h1

/-- The loop output is empty exactly when no item was rendered. -/
theorem buildMemberNavLoop_fst_eq_empty_iff (env : Host)
    (f : Option String → Option String → String) (items : List Doclet) (seen : List String) :
    (Publish.buildMemberNavLoop env f items seen).1 = "" ↔ renderedItems items seen = [] := by
  rw [buildMemberNavLoop_fst env f items seen]
  constructor
  · intro h
    rcases hr : renderedItems items seen with _ | ⟨x, xs⟩
    · rfl
    · rw [hr] at h
      simp only [List.map_cons, strConcat] at h
      exact absurd ((string_append_eq_empty_iff _ _).mp h).1 (itemFrag_ne_empty env f x)
  · intro h
    rw [h]
    rfl

/-- A section is either empty or the `<h3>` heading followed by the
item list. -/
theorem buildMemberNav_fst_cases (env : Host) (items : List Doclet) (heading : String)
    (seen : List String) (f : Option String → Option String → String) :
    (Publish.buildMemberNav env items heading seen f).1 = "" ∨
      (Publish.buildMemberNav env items heading seen f).1 =
        "<h3>" ++ heading ++ "</h3><ul>" ++ (Publish.buildMemberNavLoop env f items seen).1 ++ "</ul>" := by
  unfold Publish.buildMemberNav
  by_cases h : items.length ≠ 0
  · by_cases he : (Publish.buildMemberNavLoop env f items seen).1 ≠ ""
    · right
      simp only [if_pos h, if_pos he]
    · left
      simp only [if_pos h, if_neg he]
  · left
    simp only [if_neg h]

/-- A section heading is emitted exactly when some item of the section
was rendered. -/
theorem buildMemberNav_fst_ne_empty_iff (env : Host) (items : List Doclet) (heading : String)
    (seen : List String) (f : Option String → Option String → String) :
    (Publish.buildMemberNav env items heading seen f).1 ≠ "" ↔
      renderedItems items seen ≠ [] := by
  unfold Publish.buildMemberNav
  by_cases h : items.length ≠ 0
  · by_cases he : (Publish.buildMemberNavLoop env f items seen).1 ≠ ""
    · simp only [if_pos h, if_pos he]
      constructor
      · intro _
        intro hc
        exact he ((buildMemberNavLoop_fst_eq_empty_iff env f items seen).mpr hc)
      · intro _
        intro hc
        exact absurd ((string_append_eq_empty_iff _ _).mp hc).2 (by decide)
    · simp only [if_pos h, if_neg he]
      have hee : (Publish.buildMemberNavLoop env f items seen).1 = "" := not_not.mp he
      have hr : renderedItems items seen = [] :=
        (buildMemberNavLoop_fst_eq_empty_iff env f items seen).mp hee
      constructor
      · intro hcc
        exact absurd rfl hcc
      · intro hcc
        exact absurd hr hcc
  · simp only [if_neg h]
    have hnil : items = [] := List.length_eq_zero.mp (not_not.mp h)
    subst hnil
    simp [renderedItems]

/-- The globals list output is empty exactly when every global is a
typedef or already seen at the point it is processed. -/
theorem globalsLoop_fst_eq_empty_iff (env : Host) :
    ∀ (gs : List Doclet) (seen : List String),
      (Publish.globalsLoop env gs seen).1 = "" ↔ allGlobalsSkipped gs seen = true := by
  intro gs
  induction gs with
  | nil => intro seen; simp [Publish.globalsLoop, allGlobalsSkipped]
  | cons g rest ih =>
      intro seen
      by_cases hc : g.kind ≠ some ("typedef") ∧ lnKey g.longname ∉ seen
      · simp only [Publish.globalsLoop, if_pos hc, allGlobalsSkipped]
        constructor
        · intro h
          exact absurd ((string_append_eq_empty_iff _ _).mp h).1 (globalFrag_ne_empty env g)
        · intro h
          have hk : (g.kind == some ("typedef")) = false := by
            simp [hc.1]
          have hmem : decide (lnKey g.longname ∈ seen) = false := decide_eq_false hc.2
          rw [hk, hmem] at h
          simp at h
      · have hor : (g.kind == some ("typedef") || decide (lnKey g.longname ∈ seen)) = true := by
          rcases not_and_or.mp hc with h | h
          · have hk : g.kind = some ("typedef") := not_not.mp h
            simp [hk]
          · have hmem : lnKey g.longname ∈ seen := not_not.mp h
            simp [hmem]
        simp only [Publish.globalsLoop, if_neg hc, allGlobalsSkipped, hor, Bool.true_and,
          string_append_eq_empty_iff]
        constructor
        · intro h
          exact (ih (lnKey g.longname :: seen)).mp h.2
        · intro h
          exact ⟨trivial, (ih (lnKey g.longname :: seen)).mpr h⟩

/-- `buildNav` decomposes into the section strings in source order
followed by the optional Global section. -/
theorem buildNav_decomp (env : Host) (m : Members) :
    Publish.buildNav env m =
      if m.globals.length ≠ 0 then Publish.navBase env m ++ Publish.globalSection env m
      else Publish.navBase env m := by
  simp only [Publish.buildNav, Publish.navBase, Publish.navClasses, Publish.navModules,
    Publish.navExternals, Publish.navEvents, Publish.navNamespaces, Publish.navMixins,
    Publish.navTutorials, Publish.navInterfaces, Publish.globalSection,
    buildMemberNav_snd, seenAfterClasses, seenAfterExternals, seenAfterEvents,
    seenAfterNamespaces, seenAfterMixins, seenBeforeGlobals]
  split
  · split <;> simp [String.append_assoc]
  · rfl

/-- C4: the sidebar begins with the Home heading; it is the
concatenation of the member sections in the fixed order Classes,
Modules, Externals, Events, Namespaces, Mixins, Tutorials, Interfaces
followed — only when `members.globals` is non-empty — by a Global
section; a section's `<h3>` heading is emitted exactly when at least one
of its items was rendered; and when every global is a typedef or already
seen, the Global heading is a plain link with no item list. -/
theorem buildNav_structure :
    ∀ (env : Host) (m : Members),
      (∃ rest, Publish.buildNav env m = Publish.homeHeading ++ rest) ∧
      (Publish.buildNav env m =
        if m.globals.length ≠ 0 then Publish.navBase env m ++ Publish.globalSection env m
        else Publish.navBase env m) ∧
      (∀ (items : List Doclet) (heading : String) (seen : List String)
          (f : Option String → Option String → String),
        ((Publish.buildMemberNav env items heading seen f).1 = "" ∨
          (Publish.buildMemberNav env items heading seen f).1 =
            "<h3>" ++ heading ++ "</h3><ul>" ++
              (Publish.buildMemberNavLoop env f items seen).1 ++ "</ul>") ∧
        ((Publish.buildMemberNav env items heading seen f).1 ≠ "" ↔
          renderedItems items seen ≠ [])) ∧
      (m.globals.length ≠ 0 →
        allGlobalsSkipped m.globals (seenBeforeGlobals m) = true →
        Publish.buildNav env m =
          Publish.navBase env m ++
            ("<h3>" ++ env.linkto (some ("global")) (some ("Global")) ++ "</h3>")) := by
  intro env m
  have hb : Publish.navBase env m =
      Publish.homeHeading ++
        (Publish.navClasses env m ++ (Publish.navModules env m ++ (Publish.navExternals env m ++
          (Publish.navEvents env m ++ (Publish.navNamespaces env m ++ (Publish.navMixins env m ++
            (Publish.navTutorials env m ++ Publish.navInterfaces env m))))))) := by
    simp [Publish.navBase, String.append_assoc]
  refine ⟨?_, buildNav_decomp env m, ?_, ?_⟩
  · rw [buildNav_decomp env m]
    by_cases hg : m.globals.length ≠ 0
    · refine ⟨Publish.navClasses env m ++ (Publish.navModules env m ++ (Publish.navExternals env m ++
        (Publish.navEvents env m ++ (Publish.navNamespaces env m ++ (Publish.navMixins env m ++
          (Publish.navTutorials env m ++ Publish.navInterfaces env m)))))) ++
            Publish.globalSection env m, ?_⟩
      rw [if_pos hg, hb, String.append_assoc]
    · refine ⟨Publish.navClasses env m ++ (Publish.navModules env m ++ (Publish.navExternals env m ++
        (Publish.navEvents env m ++ (Publish.navNamespaces env m ++ (Publish.navMixins env m ++
          (Publish.navTutorials env m ++ Publish.navInterfaces env m)))))), ?_⟩
      rw [if_neg hg, hb]
  · intro items heading seen f
    exact ⟨buildMemberNav_fst_cases env items heading seen f,
      buildMemberNav_fst_ne_empty_iff env items heading seen f⟩
  · intro hg hsk
    have hge : (Publish.globalsLoop env m.globals (seenBeforeGlobals m)).1 = "" :=
      (globalsLoop_fst_eq_empty_iff env m.globals (seenBeforeGlobals m)).mpr hsk
    rw [buildNav_decomp env m, if_pos hg]
    have hgs : Publish.globalSection env m =
        "<h3>" ++ env.linkto (some ("global")) (some ("Global")) ++ "</h3>" := by
      simp only [Publish.globalSection, hge, if_pos]
    rw [hgs]

/-- A typedef global used by the C4 witness. -/
def docletTypedefG : Doclet :=
  Doclet.mk (some ("typedef")) (some ("T")) (some ("ttt")) none none false none false
    none none none none none

/-- Members whose only content is one typedef global. -/
def mW4 : Members :=
  { classes := [], modules := [], externals := [], events := [], namespaces := [],
    mixins := [], tutorials := [], interfaces := [], globals := [docletTypedefG] }

/-- Witness for C4 at a concrete input: the globals list is non-empty
but every global is a typedef, so the sidebar ends with the Global
heading rendered as a plain link. -/
theorem buildNav_structure_witness :
    Publish.buildNav envW mW4 =
      Publish.navBase envW mW4 ++ ("<h3>" ++ "[global|Global]" ++ "</h3>") := by
  have h := (buildNav_structure envW mW4).2.2.2 (by decide) (by decide)
  rw [h]
  rfl

/-- C9: the loop output is exactly the rendered items' fragments (so a
longname-bearing item contributes at most one fragment); the seen set
threaded through Classes, Externals, Events, Namespaces, Mixins,
Interfaces and Global makes the rendered longname keys of those sections
pairwise distinct; and the Modules and Tutorials sections are computed
from a fresh empty seen set, so they depend only on their own item
lists. -/
theorem nav_shared_seen_once :
    ∀ (env : Host) (m : Members),
      (∀ (f : Option String → Option String → String) (items : List Doclet)
          (seen : List String),
        (Publish.buildMemberNavLoop env f items seen).1 =
          strConcat ((renderedItems items seen).map (Publish.itemFrag env f)) ∧
        (Publish.buildMemberNavLoop env f items seen).2 = seenAfter items seen) ∧
      (∀ (items : List Doclet) (seen : List String),
        renderedLNs items seen = (renderedItems items seen).filterMap Doclet.longname) ∧
      (sharedRenderedLNs m).Nodup ∧
      (Publish.buildNav env m =
        if m.globals.length ≠ 0 then Publish.navBase env m ++ Publish.globalSection env m
        else Publish.navBase env m) ∧
      (∀ m2 : Members, m2.modules = m.modules →
        Publish.navModules env m2 = Publish.navModules env m) ∧
      (∀ m2 : Members, m2.tutorials = m.tutorials →
        Publish.navTutorials env m2 = Publish.navTutorials env m) := by
  intro env m
  refine ⟨?_, ?_, sharedRenderedLNs_nodup m, buildNav_decomp env m, ?_, ?_⟩
  · intro f items seen
    exact ⟨buildMemberNavLoop_fst env f items seen, buildMemberNavLoop_snd env f items seen⟩
  · intro items seen
    exact renderedLNs_eq_filterMap items seen
  · intro m2 h2
    unfold Publish.navModules
    rw [h2]
  · intro m2 h2
    unfold Publish.navTutorials
    rw [h2]

/-- A class doclet used by the C9 witness. -/
def docletClassA : Doclet :=
  Doclet.mk (some ("class")) (some ("A")) (some ("lnA")) none none false none false
    none none none none none

/-- Members whose Classes and Modules lists share the same item. -/
def mW9 : Members :=
  { classes := [docletClassA], modules := [docletClassA], externals := [], events := [],
    namespaces := [], mixins := [], tutorials := [], interfaces := [], globals := [] }

/-- The same members with the Classes list emptied. -/
def mW9b : Members := { mW9 with classes := [] }

/-- Witness for C9 at a concrete input: the Modules section is
unchanged when everything outside `members.modules` changes, because it
is built from a fresh empty seen set. -/
theorem nav_shared_seen_once_witness :
    Publish.navModules envW mW9b = Publish.navModules envW mW9 :=
  (nav_shared_seen_once envW mW9).2.2.2.2.1 mW9b rfl

/-- C10: when `docdash.static` is enabled and the item has a member
with static scope, the members sublist renders every member of the item
regardless of scope, because the guard compares the boolean
`!member.scope` to the string `'static'` with `===`, which is false for
every member. -/
theorem static_members_never_skipped :
    ∀ (env : Host) (members : List Doclet),
      env.docdashStatic = true →
      (∃ mem ∈ members, mem.scope = some ("static")) →
      (Publish.staticPart env members =
        "<ul class=\x27members\x27>" ++
          strConcat (members.map (fun mem =>
            "<li data-type=\x27member\x27>" ++ env.linkto mem.longname mem.name ++ "</li>")) ++
          "</ul>" ∧
       ∀ mem : Doclet,
         jsStrictEq (JsVal.bool (jsNot mem.scope)) (JsVal.str ("static")) = false) := by
  intro env members hs hm
  constructor
  · have hany : members.any (fun mem => mem.scope == some ("static")) = true := by
      rcases hm with ⟨mem, hmem, hsc⟩
      exact List.any_eq_true.mpr ⟨mem, hmem, by simp [hsc]⟩
    have hfun : Publish.memberSubItem env =
        fun mem => "<li data-type=\x27member\x27>" ++ env.linkto mem.longname mem.name ++ "</li>" := by
      funext mem
      rfl
    unfold Publish.staticPart
    rw [hs, hany]
    simp [Bool.and_self, Publish.membersSubList, hfun]
  · intro mem
    rfl

/-- A static-scoped member used by the C10 witness. -/
def docletStaticM : Doclet :=
  Doclet.mk (some ("member")) (some ("m1")) (some ("C#m1")) (some ("static")) none false
    none false none none none none none

/-- An instance-scoped member used by the C10 witness. -/
def docletInstanceM : Doclet :=
  Doclet.mk (some ("member")) (some ("m2")) (some ("C#m2")) (some ("instance")) none false
    none false none none none none none

/-- A member list with one static and one instance member. -/
def membersW : List Doclet := [docletStaticM, docletInstanceM]

/-- Witness for C10 at a concrete input: with `docdash.static` on and a
static member present, the sublist contains the instance-scoped member
too. -/
theorem static_members_never_skipped_witness :
    Publish.staticPart envW membersW =
      "<ul class=\x27members\x27>" ++
        strConcat (membersW.map (fun mem =>
          "<li data-type=\x27member\x27>" ++ envW.linkto mem.longname mem.name ++ "</li>")) ++
        "</ul>" :=
  (static_members_never_skipped envW membersW (by decide) (by decide)).1

end JsdocPowermode
